import Mathlib

/-!
Verification development for the libdynemit runtime SIMD dispatch core.

The definitions below are a shallow embedding of the C sources:
  - `detect_simd_level` embeds `detect_simd_level` from src/dynemit.c,
    as a function of the machine state read through CPUID/XGETBV;
  - `ts_call` / `ts_slot_after` embed one call of `detect_simd_level_ts`
    from src/dynemit.c, with the values observed at the atomic load,
    compare-exchange and reload points made explicit parameters;
  - `explicit_runtime_resolver` embeds the wrapper generated by the
    `EXPLICIT_RUNTIME_RESOLVER` macro from include/dynemit/err.h;
  - the `vector_sub_f32_*` kernels embed the variant family from
    features/vector_sub/vector_sub.c over an abstract element type with
    an abstract lane-wise subtraction (IEEE binary32 subtraction is the
    same deterministic lane operation in the scalar and SIMD forms).
-/

namespace Dynemit

/-- The `simd_level_t` enumeration from include/dynemit/core.h. -/
inductive SimdLevel where
  | scalar
  | sse2
  | sse42
  | avx
  | avx2
  | avx512f
deriving DecidableEq, Repr, Fintype

/-- The integer value of each enumerator, as fixed in core.h
(`SIMD_SCALAR = 0` … `SIMD_AVX512F = 5`). -/
def SimdLevel.toInt : SimdLevel → Int
  | .scalar => 0
  | .sse2 => 1
  | .sse42 => 2
  | .avx => 3
  | .avx2 => 4
  | .avx512f => 5

/-- Architecture the library is compiled for: the x86 path of the
`#if defined(__x86_64__) || defined(__i386__)` conditionals, or any
other architecture. -/
inductive Arch where
  | x86
  | other
deriving DecidableEq, Repr

/-- The machine state visible to `detect_simd_level` through the
CPUID and XGETBV instructions: the maximum basic leaf (EAX of leaf 0),
the feature registers of leaf 1 (ECX, EDX), the EBX register of leaf 7,
and the XCR0 extended-control register read by `xgetbv_x86(0)`. -/
structure Machine where
  arch : Arch
  cpuid0_eax : Nat
  cpuid1_ecx : Nat
  cpuid1_edx : Nat
  cpuid7_ebx : Nat
  xcr0 : Nat
deriving DecidableEq, Repr

/-- Bit 26 of leaf-1 EDX: SSE2 support. -/
def Machine.sse2 (m : Machine) : Bool := m.cpuid1_edx.testBit 26

/-- Bit 20 of leaf-1 ECX: SSE4.2 support. -/
def Machine.sse42 (m : Machine) : Bool := m.cpuid1_ecx.testBit 20

/-- Bit 27 of leaf-1 ECX: the OS has enabled XSAVE/XGETBV. -/
def Machine.osxsave (m : Machine) : Bool := m.cpuid1_ecx.testBit 27

/-- Bit 28 of leaf-1 ECX: AVX support. -/
def Machine.avx (m : Machine) : Bool := m.cpuid1_ecx.testBit 28

/-- Bit 5 of leaf-7 EBX: AVX2 support. -/
def Machine.avx2 (m : Machine) : Bool := m.cpuid7_ebx.testBit 5

/-- Bit 16 of leaf-7 EBX: AVX-512F support. -/
def Machine.avx512f (m : Machine) : Bool := m.cpuid7_ebx.testBit 16

/-- The local `xcr0` variable of `detect_simd_level`: initialised to 0 and
only overwritten by `xgetbv_x86(0)` when the osxsave bit is set. -/
def Machine.xcr0_read (m : Machine) : Nat :=
  if m.osxsave then m.xcr0 else 0

/-- `int ymm_ok = osxsave && ((xcr0 & 0x6) == 0x6);` -/
def Machine.ymm_ok (m : Machine) : Bool :=
  m.osxsave && (m.xcr0_read &&& 0x6 == 0x6)

/-- `int zmm_ok = osxsave && ((xcr0 & 0xE0) == 0xE0);` -/
def Machine.zmm_ok (m : Machine) : Bool :=
  m.osxsave && (m.xcr0_read &&& 0xE0 == 0xE0)

/-- Embedding of `detect_simd_level` from src/dynemit.c: on a non-x86
architecture return the baseline, on x86 return baseline when leaf 0
reports a maximum leaf of 0, otherwise resolve the tier by the
descending-priority cascade over the extracted feature bits. -/
def detect_simd_level (m : Machine) : SimdLevel :=
  match m.arch with
  | .other => .scalar
  | .x86 =>
    if m.cpuid0_eax = 0 then .scalar
    else
      if m.avx && m.avx512f && m.zmm_ok then .avx512f
      else if m.avx && m.avx2 && m.ymm_ok then .avx2
      else if m.avx && m.ymm_ok then .avx
      else if m.sse42 then .sse42
      else if m.sse2 then .sse2
      else .scalar

/-- Modelled from the spec (§4.1 step 6): resolve the tier by descending
priority over the extracted booleans — AVX-512F if (256-bit extension AND
512-bit-foundation bit AND 512-bit lanes enabled), else AVX2 if (256-bit
extension AND extension-gen-2 bit AND 256-bit lanes enabled), else AVX if
(256-bit extension AND 256-bit lanes enabled), else SSE4.2 on the
generation-N narrow bit, else SSE2 on the generation-1 narrow bit, else
baseline. -/
def spec_cascade (s2 s42 av av2 av512 ymmEn zmmEn : Bool) : SimdLevel :=
  if av && av512 && zmmEn then .avx512f
  else if av && av2 && ymmEn then .avx2
  else if av && ymmEn then .avx
  else if s42 then .sse42
  else if s2 then .sse2
  else .scalar

/-- The full bit requirements of each tier, over the extracted booleans:
exactly the guards of the cascade of `detect_simd_level`. -/
def tierNeeds (s2 s42 av av2 av512 ymmEn zmmEn : Bool) : SimdLevel → Bool
  | .scalar => true
  | .sse2 => s2
  | .sse42 => s42
  | .avx => av && ymmEn
  | .avx2 => av && av2 && ymmEn
  | .avx512f => av && av512 && zmmEn

/-- The full bit requirements of tier `t` on machine `m`. -/
def tierRequires (m : Machine) (t : SimdLevel) : Bool :=
  tierNeeds m.sse2 m.sse42 m.avx m.avx2 m.avx512f m.ymm_ok m.zmm_ok t

/-- On x86 with a nonzero maximum basic leaf, `detect_simd_level` is the
descending-priority cascade of the spec over the extracted booleans. -/
theorem detect_eq_spec_cascade (m : Machine) (hx : m.arch = .x86)
    (he : m.cpuid0_eax ≠ 0) :
    detect_simd_level m =
      spec_cascade m.sse2 m.sse42 m.avx m.avx2 m.avx512f m.ymm_ok m.zmm_ok := by
  obtain ⟨a, e0, c1, d1, b7, x0⟩ := m
  cases a
  · simp only [detect_simd_level, spec_cascade]
    simp only [Machine.cpuid0_eax] at he
    rw [if_neg he]
  · exact absurd hx (by simp)

/-- The cascade picks a satisfied tier, and the highest satisfied one. -/
theorem spec_cascade_isMax (s2 s42 av av2 av512 ymmEn zmmEn : Bool) :
    tierNeeds s2 s42 av av2 av512 ymmEn zmmEn
        (spec_cascade s2 s42 av av2 av512 ymmEn zmmEn) = true ∧
      ∀ t, tierNeeds s2 s42 av av2 av512 ymmEn zmmEn t = true →
        t.toInt ≤ (spec_cascade s2 s42 av av2 av512 ymmEn zmmEn).toInt := by
  revert s2 s42 av av2 av512 ymmEn zmmEn
  decide

/-- The individual raw feature bits consumed by the Prober: the narrow
extension bits, the OS-save bit, the wide extension bits, and the two
XCR0 enable-mask groups (`0x6` for 256-bit lanes, `0xE0` for 512-bit
lanes). -/
inductive FeatureBit where
  | sse2
  | sse42
  | osxsave
  | avx
  | avx2
  | avx512f
  | xcr0_ymm
  | xcr0_zmm
deriving DecidableEq, Repr

/-- Whether a raw feature bit is present in the machine state. -/
def featureOn (m : Machine) : FeatureBit → Bool
  | .sse2 => m.cpuid1_edx.testBit 26
  | .sse42 => m.cpuid1_ecx.testBit 20
  | .osxsave => m.cpuid1_ecx.testBit 27
  | .avx => m.cpuid1_ecx.testBit 28
  | .avx2 => m.cpuid7_ebx.testBit 5
  | .avx512f => m.cpuid7_ebx.testBit 16
  | .xcr0_ymm => m.xcr0 &&& 0x6 == 0x6
  | .xcr0_zmm => m.xcr0 &&& 0xE0 == 0xE0

/-- Clear in `x` every bit of the mask `a` (bitwise `x & ~a` on the bits
of `a`, expressed without a complement so it stays kernel-computable). -/
def clearMask (x a : Nat) : Nat := x ^^^ (x &&& a)

theorem testBit_clearMask (x a j : Nat) :
    (clearMask x a).testBit j = (x.testBit j && !(a.testBit j)) := by
  simp only [clearMask, Nat.testBit_xor, Nat.testBit_land]
  cases x.testBit j <;> cases a.testBit j <;> rfl

theorem testBit_clearMask_pow (x k j : Nat) :
    (clearMask x (2 ^ k)).testBit j = if j = k then false else x.testBit j := by
  by_cases h : j = k
  · subst h
    simp [testBit_clearMask, Nat.testBit_two_pow_self]
  · rw [if_neg h, testBit_clearMask, Nat.testBit_two_pow_of_ne (Ne.symm h)]
    simp

theorem clearMask_land_self (x a : Nat) : clearMask x a &&& a = 0 := by
  apply Nat.eq_of_testBit_eq
  intro i
  simp only [Nat.testBit_land, testBit_clearMask, Nat.zero_testBit]
  cases x.testBit i <;> cases a.testBit i <;> rfl

theorem clearMask_land_disjoint (x a b : Nat) (h : a &&& b = 0) :
    clearMask x a &&& b = x &&& b := by
  apply Nat.eq_of_testBit_eq
  intro i
  have hi : (a.testBit i && b.testBit i) = false := by
    have h2 := congrArg (fun t => t.testBit i) h
    simp only [Nat.testBit_land, Nat.zero_testBit] at h2
    exact h2
  simp only [Nat.testBit_land, testBit_clearMask]
  cases ha : a.testBit i <;> cases hb : b.testBit i <;> simp_all

theorem clearMask_land_disjoint_6_224 (x : Nat) :
    clearMask x 6 &&& 224 = x &&& 224 :=
  clearMask_land_disjoint x 6 224 (by decide)

theorem clearMask_land_disjoint_224_6 (x : Nat) :
    clearMask x 224 &&& 6 = x &&& 6 :=
  clearMask_land_disjoint x 224 6 (by decide)

/-- Disable one raw feature bit (a synthetic feature mask): clear the
corresponding register bit, or the corresponding XCR0 mask group. -/
def clearFeature (b : FeatureBit) (m : Machine) : Machine :=
  match b with
  | .sse2 => { m with cpuid1_edx := clearMask m.cpuid1_edx (2 ^ 26) }
  | .sse42 => { m with cpuid1_ecx := clearMask m.cpuid1_ecx (2 ^ 20) }
  | .osxsave => { m with cpuid1_ecx := clearMask m.cpuid1_ecx (2 ^ 27) }
  | .avx => { m with cpuid1_ecx := clearMask m.cpuid1_ecx (2 ^ 28) }
  | .avx2 => { m with cpuid7_ebx := clearMask m.cpuid7_ebx (2 ^ 5) }
  | .avx512f => { m with cpuid7_ebx := clearMask m.cpuid7_ebx (2 ^ 16) }
  | .xcr0_ymm => { m with xcr0 := clearMask m.xcr0 0x6 }
  | .xcr0_zmm => { m with xcr0 := clearMask m.xcr0 0xE0 }

/-- The raw feature bits required by each tier. -/
def requiredBits : SimdLevel → List FeatureBit
  | .scalar => []
  | .sse2 => [.sse2]
  | .sse42 => [.sse42]
  | .avx => [.avx, .osxsave, .xcr0_ymm]
  | .avx2 => [.avx, .avx2, .osxsave, .xcr0_ymm]
  | .avx512f => [.avx, .avx512f, .osxsave, .xcr0_zmm]

theorem ymm_ok_eq (m : Machine) :
    m.ymm_ok = (m.osxsave && (m.xcr0 &&& 0x6 == 0x6)) := by
  unfold Machine.ymm_ok Machine.xcr0_read
  cases h : m.osxsave <;> simp [h]

theorem zmm_ok_eq (m : Machine) :
    m.zmm_ok = (m.osxsave && (m.xcr0 &&& 0xE0 == 0xE0)) := by
  unfold Machine.zmm_ok Machine.xcr0_read
  cases h : m.osxsave <;> simp [h]

/-- A tier's requirements hold exactly when all its raw feature bits are
present. -/
theorem tierRequires_eq_all (m : Machine) (t : SimdLevel) :
    tierRequires m t = (requiredBits t).all (featureOn m) := by
  cases t <;>
    simp [tierRequires, tierNeeds, requiredBits, featureOn, ymm_ok_eq,
      zmm_ok_eq, Machine.sse2, Machine.sse42, Machine.osxsave, Machine.avx,
      Machine.avx2, Machine.avx512f, Bool.and_assoc, Bool.and_comm,
      Bool.and_left_comm]

/-- Disabling a raw feature bit makes that bit absent. -/
theorem featureOn_clearFeature_self (b : FeatureBit) (m : Machine) :
    featureOn (clearFeature b m) b = false := by
  cases b <;>
    simp +decide [featureOn, clearFeature, testBit_clearMask,
      clearMask_land_self]

/-- Disabling one raw feature bit never turns another bit on. -/
theorem featureOn_clearFeature_mono (b c : FeatureBit) (m : Machine)
    (h : featureOn (clearFeature b m) c = true) : featureOn m c = true := by
  cases b <;> cases c <;>
    simp_all +decide [featureOn, clearFeature, testBit_clearMask,
      clearMask_land_self, clearMask_land_disjoint_6_224,
      clearMask_land_disjoint_224_6]

theorem clearFeature_arch (b : FeatureBit) (m : Machine) :
    (clearFeature b m).arch = m.arch := by
  cases b <;> rfl

theorem clearFeature_cpuid0 (b : FeatureBit) (m : Machine) :
    (clearFeature b m).cpuid0_eax = m.cpuid0_eax := by
  cases b <;> rfl

theorem tierRequires_clearFeature_mono (b : FeatureBit) (m : Machine)
    (t : SimdLevel) (h : tierRequires (clearFeature b m) t = true) :
    tierRequires m t = true := by
  rw [tierRequires_eq_all] at h ⊢
  rw [List.all_eq_true] at h ⊢
  intro x hx
  exact featureOn_clearFeature_mono b x m (h x hx)

theorem tierRequires_clearFeature_of_mem (b : FeatureBit) (m : Machine)
    (t : SimdLevel) (hb : b ∈ requiredBits t) :
    tierRequires (clearFeature b m) t = false := by
  rw [tierRequires_eq_all]
  cases hall : (requiredBits t).all (featureOn (clearFeature b m))
  · rfl
  · rw [List.all_eq_true] at hall
    have := hall b hb
    rw [featureOn_clearFeature_self] at this
    exact absurd this (by simp)

theorem SimdLevel.toInt_inj {a b : SimdLevel} (h : a.toInt = b.toInt) :
    a = b := by
  revert h
  cases a <;> cases b <;> decide

/-- On the x86 probing path, `detect_simd_level` satisfies its own tier's
requirements and dominates every satisfied tier. -/
theorem detect_isMax (m : Machine) (hx : m.arch = .x86)
    (he : m.cpuid0_eax ≠ 0) :
    tierRequires m (detect_simd_level m) = true ∧
      ∀ t, tierRequires m t = true →
        t.toInt ≤ (detect_simd_level m).toInt := by
  rw [detect_eq_spec_cascade m hx he]
  exact spec_cascade_isMax m.sse2 m.sse42 m.avx m.avx2 m.avx512f
    m.ymm_ok m.zmm_ok

/-- A concrete x86 machine state with every feature bit of every tier
present: SSE2, SSE4.2, OSXSAVE, AVX in leaf 1, AVX2 and AVX-512F in
leaf 7, and XCR0 = 0xE7 (x87/SSE/YMM/ZMM state all enabled). -/
def fullMachine : Machine :=
  { arch := .x86
    cpuid0_eax := 13
    cpuid1_ecx := 2 ^ 20 + 2 ^ 27 + 2 ^ 28
    cpuid1_edx := 2 ^ 26
    cpuid7_ebx := 2 ^ 5 + 2 ^ 16
    xcr0 := 0xE7 }

/-- C1 (amended): on the x86 probing path, `detect_simd_level` returns the
tier of the exact descending-priority cascade of spec §4.1 step 6, which is
the highest tier whose full bit requirements are satisfied; and disabling
any bit required for the tier `t` that is currently resolved yields a
resolved tier strictly less than `t` — again the highest tier whose
remaining requirements are satisfied. -/
theorem detect_simd_level_cascade_max_and_fallback (m : Machine)
    (hx : m.arch = .x86) (he : m.cpuid0_eax ≠ 0) :
    detect_simd_level m =
        spec_cascade m.sse2 m.sse42 m.avx m.avx2 m.avx512f m.ymm_ok m.zmm_ok ∧
      tierRequires m (detect_simd_level m) = true ∧
      (∀ t, tierRequires m t = true → t.toInt ≤ (detect_simd_level m).toInt) ∧
      ∀ b t, detect_simd_level m = t → b ∈ requiredBits t →
        (detect_simd_level (clearFeature b m)).toInt < t.toInt ∧
          tierRequires (clearFeature b m)
              (detect_simd_level (clearFeature b m)) = true ∧
          ∀ u, tierRequires (clearFeature b m) u = true →
            u.toInt ≤ (detect_simd_level (clearFeature b m)).toInt := by
  obtain ⟨hsat, hmax⟩ := detect_isMax m hx he
  refine ⟨detect_eq_spec_cascade m hx he, hsat, hmax, ?_⟩
  intro b t hdet hb
  have hx2 : (clearFeature b m).arch = .x86 := by
    rw [clearFeature_arch]; exact hx
  have he2 : (clearFeature b m).cpuid0_eax ≠ 0 := by
    rw [clearFeature_cpuid0]; exact he
  obtain ⟨hsat2, hmax2⟩ := detect_isMax (clearFeature b m) hx2 he2
  have hne : detect_simd_level (clearFeature b m) ≠ t := by
    intro hEq
    have hfalse := tierRequires_clearFeature_of_mem b m t hb
    rw [hEq] at hsat2
    simp [hfalse] at hsat2
  have hle : (detect_simd_level (clearFeature b m)).toInt ≤ t.toInt := by
    rw [← hdet]
    exact hmax _ (tierRequires_clearFeature_mono b m _ hsat2)
  exact ⟨lt_of_le_of_ne hle (fun hEq => hne (SimdLevel.toInt_inj hEq)),
    hsat2, hmax2⟩

/-- C1 counterexample to the claim as stated: on a machine with every
feature bit present, disabling the AVX2 bit — a bit required for the AVX2
tier — leaves the resolved tier at AVX-512F, which is not strictly less
than the AVX2 tier. -/
theorem monotonic_fallback_unrestricted_counterexample :
    FeatureBit.avx2 ∈ requiredBits SimdLevel.avx2 ∧
      featureOn fullMachine FeatureBit.avx2 = true ∧
      featureOn (clearFeature FeatureBit.avx2 fullMachine) FeatureBit.avx2
          = false ∧
      detect_simd_level (clearFeature FeatureBit.avx2 fullMachine)
          = SimdLevel.avx512f ∧
      ¬((detect_simd_level (clearFeature FeatureBit.avx2 fullMachine)).toInt
          < SimdLevel.avx2.toInt) := by
  decide

/-- C1 witness: the amended theorem applied to the all-features machine,
with the fallback part instantiated at the resolved tier AVX-512F and its
required bit `xcr0_zmm`. -/
theorem detect_simd_level_cascade_max_and_fallback_witness :
    (detect_simd_level (clearFeature FeatureBit.xcr0_zmm fullMachine)).toInt
        < SimdLevel.avx512f.toInt ∧
      detect_simd_level fullMachine =
        spec_cascade fullMachine.sse2 fullMachine.sse42 fullMachine.avx
          fullMachine.avx2 fullMachine.avx512f fullMachine.ymm_ok
          fullMachine.zmm_ok :=
  ⟨((detect_simd_level_cascade_max_and_fallback fullMachine rfl
        (by decide)).2.2.2 FeatureBit.xcr0_zmm SimdLevel.avx512f (by decide)
        (by decide)).1,
    (detect_simd_level_cascade_max_and_fallback fullMachine rfl
        (by decide)).1⟩

/-- C5: with the osxsave bit absent `detect_simd_level` never returns a
wide-vector tier, whatever the CPU-reported avx/avx2/avx512f bits; and in
general each wide-vector tier is selected only when both the CPU support
bit and the OS enable-mask bits for that width are present. -/
theorem detect_simd_level_requires_os_enable (m : Machine) :
    (m.osxsave = false →
      detect_simd_level m ≠ SimdLevel.avx ∧
        detect_simd_level m ≠ SimdLevel.avx2 ∧
        detect_simd_level m ≠ SimdLevel.avx512f) ∧
      (detect_simd_level m = SimdLevel.avx512f →
        m.avx = true ∧ m.avx512f = true ∧ m.osxsave = true ∧
          m.xcr0 &&& 0xE0 = 0xE0) ∧
      (detect_simd_level m = SimdLevel.avx2 →
        m.avx = true ∧ m.avx2 = true ∧ m.osxsave = true ∧
          m.xcr0 &&& 0x6 = 0x6) ∧
      (detect_simd_level m = SimdLevel.avx →
        m.avx = true ∧ m.osxsave = true ∧ m.xcr0 &&& 0x6 = 0x6) := by
  have harch : ∀ t, detect_simd_level m = t → t ≠ SimdLevel.scalar →
      m.arch = Arch.x86 ∧ m.cpuid0_eax ≠ 0 := by
    intro t hdet hne
    rcases hA : m.arch with _ | _
    · by_cases he : m.cpuid0_eax = 0
      · exfalso
        apply hne
        rw [← hdet]
        simp [detect_simd_level, hA, he]
      · exact ⟨hA.symm ▸ rfl, he⟩
    · exfalso
      apply hne
      rw [← hdet]
      simp [detect_simd_level, hA]
  have h512 : detect_simd_level m = SimdLevel.avx512f →
      m.avx = true ∧ m.avx512f = true ∧ m.osxsave = true ∧
        m.xcr0 &&& 0xE0 = 0xE0 := by
    intro hdet
    obtain ⟨hx, he⟩ := harch _ hdet (by decide)
    have hsat := (detect_isMax m hx he).1
    rw [hdet] at hsat
    have hreq : ((m.avx && m.avx512f) && m.zmm_ok) = true := hsat
    rw [zmm_ok_eq] at hreq
    simp only [Bool.and_eq_true, beq_iff_eq] at hreq
    exact ⟨hreq.1.1, hreq.1.2, hreq.2.1, hreq.2.2⟩
  have h256 : detect_simd_level m = SimdLevel.avx2 →
      m.avx = true ∧ m.avx2 = true ∧ m.osxsave = true ∧
        m.xcr0 &&& 0x6 = 0x6 := by
    intro hdet
    obtain ⟨hx, he⟩ := harch _ hdet (by decide)
    have hsat := (detect_isMax m hx he).1
    rw [hdet] at hsat
    have hreq : ((m.avx && m.avx2) && m.ymm_ok) = true := hsat
    rw [ymm_ok_eq] at hreq
    simp only [Bool.and_eq_true, beq_iff_eq] at hreq
    exact ⟨hreq.1.1, hreq.1.2, hreq.2.1, hreq.2.2⟩
  have havx : detect_simd_level m = SimdLevel.avx →
      m.avx = true ∧ m.osxsave = true ∧ m.xcr0 &&& 0x6 = 0x6 := by
    intro hdet
    obtain ⟨hx, he⟩ := harch _ hdet (by decide)
    have hsat := (detect_isMax m hx he).1
    rw [hdet] at hsat
    have hreq : (m.avx && m.ymm_ok) = true := hsat
    rw [ymm_ok_eq] at hreq
    simp only [Bool.and_eq_true, beq_iff_eq] at hreq
    exact ⟨hreq.1, hreq.2.1, hreq.2.2⟩
  refine ⟨?_, h512, h256, havx⟩
  intro hos
  refine ⟨fun h => ?_, fun h => ?_, fun h => ?_⟩
  · have hcon := (havx h).2.1
    rw [hos] at hcon
    exact absurd hcon (by decide)
  · have hcon := (h256 h).2.2.1
    rw [hos] at hcon
    exact absurd hcon (by decide)
  · have hcon := (h512 h).2.2.1
    rw [hos] at hcon
    exact absurd hcon (by decide)

/-- An x86 machine with every feature bit present except osxsave. -/
def noOsxsaveMachine : Machine :=
  { arch := .x86
    cpuid0_eax := 13
    cpuid1_ecx := 2 ^ 20 + 2 ^ 28
    cpuid1_edx := 2 ^ 26
    cpuid7_ebx := 2 ^ 5 + 2 ^ 16
    xcr0 := 0xE7 }

/-- C5 witness: on the osxsave-free machine no wide tier is returned. -/
theorem detect_simd_level_requires_os_enable_witness :
    detect_simd_level noOsxsaveMachine ≠ SimdLevel.avx ∧
      detect_simd_level noOsxsaveMachine ≠ SimdLevel.avx2 ∧
      detect_simd_level noOsxsaveMachine ≠ SimdLevel.avx512f :=
  (detect_simd_level_requires_os_enable noOsxsaveMachine).1 (by decide)

/-- C9: on a non-x86 architecture `detect_simd_level` returns the baseline
tier, and on x86 a zero maximum basic leaf returns the baseline whatever
the remaining feature registers hold. -/
theorem detect_simd_level_baseline_paths (m : Machine) :
    (m.arch = Arch.other → detect_simd_level m = SimdLevel.scalar) ∧
      (m.arch = Arch.x86 → m.cpuid0_eax = 0 →
        detect_simd_level m = SimdLevel.scalar) := by
  constructor
  · intro hA
    simp [detect_simd_level, hA]
  · intro hA he
    simp [detect_simd_level, hA, he]

/-- An x86 machine whose leaf-0 query reports no extended leaves even
though every feature register bit is set. -/
def leaf0Machine : Machine :=
  { arch := .x86
    cpuid0_eax := 0
    cpuid1_ecx := 2 ^ 20 + 2 ^ 27 + 2 ^ 28
    cpuid1_edx := 2 ^ 26
    cpuid7_ebx := 2 ^ 5 + 2 ^ 16
    xcr0 := 0xE7 }

/-- A non-x86 machine whose feature registers nonetheless hold every bit. -/
def otherArchMachine : Machine :=
  { arch := .other
    cpuid0_eax := 13
    cpuid1_ecx := 2 ^ 20 + 2 ^ 27 + 2 ^ 28
    cpuid1_edx := 2 ^ 26
    cpuid7_ebx := 2 ^ 5 + 2 ^ 16
    xcr0 := 0xE7 }

/-- C9 witness: both baseline paths at concrete machine states. -/
theorem detect_simd_level_baseline_paths_witness :
    detect_simd_level otherArchMachine = SimdLevel.scalar ∧
      detect_simd_level leaf0Machine = SimdLevel.scalar :=
  ⟨(detect_simd_level_baseline_paths otherArchMachine).1 rfl,
    (detect_simd_level_baseline_paths leaf0Machine).2 rfl rfl⟩

/-!
Embedding of `detect_simd_level_ts` from src/dynemit.c.

The function works on a process-wide atomic slot `cached_level`
initialised to the sentinel `-1`.  One call performs: an acquire load
(`lv`), and if the loaded value is negative, a full probe followed by a
single compare-exchange against the sentinel; on a lost race it reloads
the slot (`rv`).  To capture concurrent interleavings the values the call
observes at the load point, at the compare-exchange point (`cv`) and at
the reload point are explicit parameters; acquire/release ordering is
reflected by the hypothesis that a reload after a failed compare-exchange
observes the already-published slot value.
-/

/-- Slot values reachable in the `cached_level` state machine: the
sentinel, or the published probe result for the fixed hardware state. -/
def ReachableSlot (m : Machine) (v : Int) : Prop :=
  v = -1 ∨ v = (detect_simd_level m).toInt

/-- The value one call of `detect_simd_level_ts` returns, given the slot
values it observes: `lv` at the initial acquire load, `cv` at the
compare-exchange, `rv` at the reload after a lost compare-exchange. -/
def ts_call (m : Machine) (lv cv rv : Int) : Int :=
  if lv < 0 then
    let detected := (detect_simd_level m).toInt
    if cv = -1 then detected else rv
  else lv

/-- The slot content after the call's compare-exchange point: the only
write a call can perform is the single publish of the probe result over
the sentinel. -/
def ts_slot_after (m : Machine) (lv cv : Int) : Int :=
  if lv < 0 then
    if cv = -1 then (detect_simd_level m).toInt else cv
  else cv

theorem SimdLevel.toInt_bounds (l : SimdLevel) :
    0 ≤ l.toInt ∧ l.toInt ≤ 5 := by
  cases l <;> decide

/-- C3: the cached detector is a single-transition memoization of the
Prober: the probe result is never the sentinel, the slot only ever steps
from the sentinel to the probe result and never changes once published,
and every call — racing or not — returns exactly the freshly computed
`detect_simd_level` value. -/
theorem detect_simd_level_ts_memoizes (m : Machine) (lv cv rv : Int)
    (hlv : ReachableSlot m lv) (hcv : ReachableSlot m cv)
    (hrv : cv ≠ -1 → rv = cv) :
    (detect_simd_level m).toInt ≠ -1 ∧
      ts_call m lv cv rv = (detect_simd_level m).toInt ∧
      ReachableSlot m (ts_slot_after m lv cv) ∧
      (0 ≤ cv → ts_slot_after m lv cv = cv) := by
  obtain ⟨hge, _⟩ := SimdLevel.toInt_bounds (detect_simd_level m)
  have hsent : (detect_simd_level m).toInt ≠ -1 := by omega
  refine ⟨hsent, ?_, ?_, ?_⟩
  · unfold ts_call
    rcases hlv with hlv | hlv
    · subst hlv
      rcases hcv with hcv | hcv
      · simp [hcv]
      · have hne : cv ≠ -1 := by omega
        simp only [if_neg (by omega : ¬(cv:Int) = -1)]
        rw [if_pos (by omega : (-1:Int) < 0)]
        rw [hrv hne, hcv]
    · subst hlv
      rw [if_neg (by omega)]
  · unfold ts_slot_after
    rcases hcv with hcv | hcv <;> subst hcv <;> split_ifs <;>
      simp [ReachableSlot]
  · intro hge2
    unfold ts_slot_after
    have : ¬(cv = -1) := by omega
    simp [this]

/-- C3 witness: a raced first call on the all-features machine — sentinel
loaded, another thread published between load and compare-exchange — still
returns the fresh probe result. -/
theorem detect_simd_level_ts_memoizes_witness :
    ReachableSlot fullMachine (-1) ∧
      ts_call fullMachine (-1) (-1) 0 = (detect_simd_level fullMachine).toInt :=
  ⟨Or.inl rfl,
    (detect_simd_level_ts_memoizes fullMachine (-1) (-1) 0 (Or.inl rfl)
        (Or.inl rfl) (fun h => absurd rfl h)).2.1⟩

/-- C10: the cached detector never leaks the sentinel: every value a call
returns lies in the enumeration range 0‥5, hence differs from `-1`. -/
theorem detect_simd_level_ts_range (m : Machine) (lv cv rv : Int)
    (hlv : ReachableSlot m lv) (hcv : ReachableSlot m cv)
    (hrv : cv ≠ -1 → rv = cv) :
    0 ≤ ts_call m lv cv rv ∧ ts_call m lv cv rv ≤ 5 ∧
      ts_call m lv cv rv ≠ -1 := by
  obtain ⟨hge, hle⟩ := SimdLevel.toInt_bounds (detect_simd_level m)
  have hret : ts_call m lv cv rv = (detect_simd_level m).toInt := by
    unfold ts_call
    rcases hlv with hlv | hlv
    · subst hlv
      rcases hcv with hcv | hcv
      · simp [hcv]
      · have hne : cv ≠ -1 := by omega
        simp only [if_neg (by omega : ¬(cv:Int) = -1)]
        rw [if_pos (by omega : (-1:Int) < 0)]
        rw [hrv hne, hcv]
    · subst hlv
      rw [if_neg (by omega)]
  rw [hret]
  exact ⟨hge, hle, by omega⟩

/-- C10 witness: a second call that loads the already-published slot on
the osxsave-free machine returns a value in range, distinct from the
sentinel. -/
theorem detect_simd_level_ts_range_witness :
    0 ≤ ts_call noOsxsaveMachine
        (detect_simd_level noOsxsaveMachine).toInt
        (detect_simd_level noOsxsaveMachine).toInt
        (detect_simd_level noOsxsaveMachine).toInt ∧
      ts_call noOsxsaveMachine
        (detect_simd_level noOsxsaveMachine).toInt
        (detect_simd_level noOsxsaveMachine).toInt
        (detect_simd_level noOsxsaveMachine).toInt ≠ -1 :=
  ⟨(detect_simd_level_ts_range noOsxsaveMachine _ _ _ (Or.inr rfl)
      (Or.inr rfl) (fun _ => rfl)).1,
    (detect_simd_level_ts_range noOsxsaveMachine _ _ _ (Or.inr rfl)
      (Or.inr rfl) (fun _ => rfl)).2.2⟩

/-!
Embedding of the vector_sub variant family selection
(features/vector_sub/vector_sub.c) and of the runtime-dispatch behaviour
of its resolver.  Function pointers are modelled as `Option` values where
`none` stands for a null pointer; the address of a defined function is
never null, so each `return` of a concrete variant is `some`.
-/

/-- The members of the vector_sub_f32 variant family. -/
inductive Variant where
  | scalar
  | sse2
  | sse42
  | avx
  | avx2
  | avx512f
deriving DecidableEq, Repr

/-- The `switch` of `vector_sub_f32_resolver`, over the integer value of
the `simd_level_t` argument (any value outside 0‥5 falls to the `default`
label, which shares the `SIMD_SCALAR` case). -/
def vector_sub_f32_select (level : Int) : Option Variant :=
  if level = 5 then some .avx512f
  else if level = 4 then some .avx2
  else if level = 3 then some .avx
  else if level = 2 then some .sse42
  else if level = 1 then some .sse2
  else some .scalar

/-- Observable runtime-dispatch state: the shared `cached_level` slot of
`detect_simd_level_ts` and a count of full Prober (CPUID sequence) runs
performed so far. -/
structure RuntimeState where
  cached_level : Int
  probes : Nat
deriving DecidableEq, Repr

/-- Calling `detect_simd_level`: always performs a fresh probe and never
touches the cache slot. -/
def detect_simd_level_run (m : Machine) (s : RuntimeState) :
    SimdLevel × RuntimeState :=
  (detect_simd_level m, { s with probes := s.probes + 1 })

/-- Calling `detect_simd_level_ts` (race-free execution): probes and
publishes only when the slot still holds the sentinel. -/
def detect_simd_level_ts_run (m : Machine) (s : RuntimeState) :
    Int × RuntimeState :=
  if s.cached_level < 0 then
    ((detect_simd_level m).toInt,
      { cached_level := (detect_simd_level m).toInt,
        probes := s.probes + 1 })
  else (s.cached_level, s)

/-- Embedding of `vector_sub_f32_resolver`: it calls `detect_simd_level`
(the fresh Prober, as written in the source) and switches on the level. -/
def vector_sub_f32_resolver_run (m : Machine) (s : RuntimeState) :
    Option Variant × RuntimeState :=
  let r := detect_simd_level_run m s
  (vector_sub_f32_select r.1.toInt, r.2)

/-- C2 failing-path theorem: every run of `vector_sub_f32_resolver`
performs one fresh Prober run and neither reads nor writes the shared
cache slot — even when the tier is already published, where the Cached
Detector would perform none.  The resolution therefore does not
participate in the memoized tier decision. -/
theorem vector_sub_f32_resolver_fresh_probe (m : Machine)
    (s : RuntimeState) :
    (vector_sub_f32_resolver_run m s).2.probes = s.probes + 1 ∧
      (vector_sub_f32_resolver_run m s).2.cached_level = s.cached_level ∧
      (detect_simd_level_ts_run m
          { cached_level := (detect_simd_level m).toInt,
            probes := s.probes }).2.probes = s.probes := by
  refine ⟨rfl, rfl, ?_⟩
  unfold detect_simd_level_ts_run
  obtain ⟨hge, _⟩ := SimdLevel.toInt_bounds (detect_simd_level m)
  rw [if_neg (by simpa using by omega : ¬(detect_simd_level m).toInt < 0)]

/-- C7: the selection switch maps every integer level — the six
enumerators and every out-of-range value — to a non-null variant, and so
does the full resolver on every machine and runtime state. -/
theorem vector_sub_f32_select_total (level : Int) :
    (vector_sub_f32_select level).isSome = true ∧
      ∀ m s, ((vector_sub_f32_resolver_run m s).1).isSome = true := by
  constructor
  · unfold vector_sub_f32_select
    split_ifs <;> rfl
  · intro m s
    show (vector_sub_f32_select
      (detect_simd_level_run m s).1.toInt).isSome = true
    unfold vector_sub_f32_select
    split_ifs <;> rfl

/-!
Embedding of the `EXPLICIT_RUNTIME_RESOLVER` wrapper
(include/dynemit/err.h).  The wrapped implementation returns a `void *`
pointer, modelled as a natural number where `0` is the null pointer; the
wrapper either returns the pointer or executes `__builtin_trap()`.
-/

/-- Outcome of the generated wrapper: a returned pointer, or a trap that
terminates the process. -/
inductive ResolveOutcome where
  | returns (p : Nat)
  | trap
deriving DecidableEq, Repr

/-- The wrapper body generated by `EXPLICIT_RUNTIME_RESOLVER(name)`:
`void *result = name_impl(); if (!result) __builtin_trap(); return
result;`. -/
def explicit_runtime_resolver (impl : Unit → Nat) : ResolveOutcome :=
  let result := impl ()
  if result = 0 then .trap else .returns result

/-- C4: the generated wrapper never returns a null pointer — a non-null
implementation result is returned unchanged, a null one traps, and any
returned pointer is non-null. -/
theorem explicit_runtime_resolver_never_null (impl : Unit → Nat) :
    (impl () ≠ 0 →
        explicit_runtime_resolver impl = ResolveOutcome.returns (impl ())) ∧
      (impl () = 0 → explicit_runtime_resolver impl = ResolveOutcome.trap) ∧
      ∀ p, explicit_runtime_resolver impl = ResolveOutcome.returns p →
        p ≠ 0 := by
  refine ⟨fun h => ?_, fun h => ?_, fun p hp => ?_⟩
  · unfold explicit_runtime_resolver
    rw [if_neg h]
  · unfold explicit_runtime_resolver
    rw [if_pos h]
  · unfold explicit_runtime_resolver at hp
    by_cases h : impl () = 0
    · rw [if_pos h] at hp
      exact absurd hp (by simp)
    · rw [if_neg h] at hp
      cases hp
      exact h

/-- C4 witness: a resolver returning the non-null pointer 7 is passed
through; one returning null traps. -/
theorem explicit_runtime_resolver_never_null_witness :
    explicit_runtime_resolver (fun _ => 7) = ResolveOutcome.returns 7 ∧
      explicit_runtime_resolver (fun _ => 0) = ResolveOutcome.trap :=
  ⟨(explicit_runtime_resolver_never_null (fun _ => 7)).1 (by decide),
    (explicit_runtime_resolver_never_null (fun _ => 0)).2.1 rfl⟩

/-!
Embedding of the vector_sub_f32 variant family
(features/vector_sub/vector_sub.c).  The element type and the lane-wise
binary32 subtraction are abstract: `_mm_sub_ps`/`_mm256_sub_ps`/
`_mm512_sub_ps` perform in each lane exactly the scalar `a[i] - b[i]`
operation, so a variant is characterised by which elementwise operation it
applies at which indices.  Buffers are functions from indices; the inputs
`a`, `b` are read-only and distinct from the output, matching the
non-overlapping-buffers contract.  Each C loop is embedded through its
trip count: the main SIMD loop `for (; i + step <= n; i += step)` starting
at `i = 0` runs exactly `n / step` iterations and leaves `i = step * (n /
step)`, and the remainder loop `for (; i < n; i++)` runs `n - i`
iterations.
-/

section Kernels

variable {α : Type}

/-- Pointwise store `out[i] = v`. -/
def upd (out : Nat → α) (i : Nat) (v : α) : Nat → α :=
  fun j => if j = i then v else out j

/-- The scalar element loop: starting at index `i`, perform `fuel` steps
of `out[i] = a[i] - b[i]; i++`. -/
def scalarLoopF (sub : α → α → α) (a b : Nat → α) :
    Nat → (Nat → α) → Nat → Nat → α
  | 0, out, _ => out
  | f + 1, out, i =>
      scalarLoopF sub a b f (upd out i (sub (a i) (b i))) (i + 1)

/-- One SIMD chunk store: the wide load/sub/store writes `lanes`
consecutive results starting at index `i`. -/
def writeChunk (sub : α → α → α) (a b : Nat → α) (out : Nat → α)
    (i : Nat) : Nat → Nat → α
  | 0 => out
  | l + 1 =>
      upd (writeChunk sub a b out i l) (i + l) (sub (a (i + l)) (b (i + l)))

/-- The main SIMD loop: `c` chunk iterations of width `s + 1`, starting at
index `i`. -/
def simdChunks (sub : α → α → α) (a b : Nat → α) (s : Nat) :
    Nat → (Nat → α) → Nat → Nat → α
  | 0, out, _ => out
  | c + 1, out, i =>
      simdChunks sub a b s c (writeChunk sub a b out i (s + 1)) (i + (s + 1))

/-- A SIMD variant body of width `s + 1`: the main chunk loop from index
0, then the scalar remainder loop up to `n`. -/
def simdKernel (sub : α → α → α) (a b : Nat → α) (s : Nat)
    (out : Nat → α) (n : Nat) : Nat → α :=
  scalarLoopF sub a b (n - (s + 1) * (n / (s + 1)))
    (simdChunks sub a b s (n / (s + 1)) out 0)
    ((s + 1) * (n / (s + 1)))

/-- `vector_sub_f32_scalar`: the plain element loop over all `n` items. -/
def vector_sub_f32_scalar (sub : α → α → α) (a b out : Nat → α)
    (n : Nat) : Nat → α :=
  scalarLoopF sub a b n out 0

/-- `vector_sub_f32_sse2`: 4-lane chunks plus scalar remainder. -/
def vector_sub_f32_sse2 (sub : α → α → α) (a b out : Nat → α)
    (n : Nat) : Nat → α :=
  simdKernel sub a b 3 out n

/-- `vector_sub_f32_sse42`: 4-lane chunks plus scalar remainder. -/
def vector_sub_f32_sse42 (sub : α → α → α) (a b out : Nat → α)
    (n : Nat) : Nat → α :=
  simdKernel sub a b 3 out n

/-- `vector_sub_f32_avx`: 8-lane chunks plus scalar remainder. -/
def vector_sub_f32_avx (sub : α → α → α) (a b out : Nat → α)
    (n : Nat) : Nat → α :=
  simdKernel sub a b 7 out n

/-- `vector_sub_f32_avx2`: 8-lane chunks plus scalar remainder. -/
def vector_sub_f32_avx2 (sub : α → α → α) (a b out : Nat → α)
    (n : Nat) : Nat → α :=
  simdKernel sub a b 7 out n

/-- `vector_sub_f32_avx512f`: 16-lane chunks plus scalar remainder. -/
def vector_sub_f32_avx512f (sub : α → α → α) (a b out : Nat → α)
    (n : Nat) : Nat → α :=
  simdKernel sub a b 15 out n

theorem scalarLoopF_spec (sub : α → α → α) (a b : Nat → α) :
    ∀ f out i j, scalarLoopF sub a b f out i j =
      if i ≤ j ∧ j < i + f then sub (a j) (b j) else out j := by
  intro f
  induction f with
  | zero =>
    intro out i j
    show out j = _
    rw [if_neg (by omega)]
  | succ f ih =>
    intro out i j
    show scalarLoopF sub a b f (upd out i (sub (a i) (b i))) (i + 1) j = _
    rw [ih]
    by_cases h1 : i + 1 ≤ j ∧ j < i + 1 + f
    · rw [if_pos h1, if_pos (by omega)]
    · rw [if_neg h1]
      show (if j = i then sub (a i) (b i) else out j) = _
      by_cases h2 : j = i
      · subst h2
        rw [if_pos rfl, if_pos (by omega)]
      · rw [if_neg h2, if_neg (by omega)]

theorem writeChunk_spec (sub : α → α → α) (a b : Nat → α)
    (out : Nat → α) (i : Nat) :
    ∀ lanes j, writeChunk sub a b out i lanes j =
      if i ≤ j ∧ j < i + lanes then sub (a j) (b j) else out j := by
  intro lanes
  induction lanes with
  | zero =>
    intro j
    show out j = _
    rw [if_neg (by omega)]
  | succ l ih =>
    intro j
    show (if j = i + l then sub (a (i + l)) (b (i + l))
      else writeChunk sub a b out i l j) = _
    by_cases h2 : j = i + l
    · subst h2
      rw [if_pos rfl, if_pos (by omega)]
    · rw [if_neg h2, ih]
      by_cases h3 : i ≤ j ∧ j < i + l
      · rw [if_pos h3, if_pos (by omega)]
      · rw [if_neg h3, if_neg (by omega)]

theorem simdChunks_spec (sub : α → α → α) (a b : Nat → α) (s : Nat) :
    ∀ c out i j, simdChunks sub a b s c out i j =
      if i ≤ j ∧ j < i + (s + 1) * c then sub (a j) (b j) else out j := by
  intro c
  induction c with
  | zero =>
    intro out i j
    show out j = _
    rw [if_neg (by omega)]
  | succ c ih =>
    intro out i j
    show simdChunks sub a b s c (writeChunk sub a b out i (s + 1))
      (i + (s + 1)) j = _
    rw [ih, writeChunk_spec]
    have hms : (s + 1) * (c + 1) = (s + 1) * c + (s + 1) := by ring
    by_cases h1 : i + (s + 1) ≤ j ∧ j < i + (s + 1) + (s + 1) * c
    · rw [if_pos h1, if_pos (by omega)]
    · rw [if_neg h1]
      by_cases h2 : i ≤ j ∧ j < i + (s + 1)
      · rw [if_pos h2, if_pos (by omega)]
      · rw [if_neg h2, if_neg (by omega)]

theorem simdKernel_spec (sub : α → α → α) (a b : Nat → α) (s : Nat)
    (out : Nat → α) (n : Nat) :
    ∀ j, simdKernel sub a b s out n j =
      if j < n then sub (a j) (b j) else out j := by
  intro j
  have hle : (s + 1) * (n / (s + 1)) ≤ n := Nat.mul_div_le n (s + 1)
  show scalarLoopF sub a b (n - (s + 1) * (n / (s + 1)))
    (simdChunks sub a b s (n / (s + 1)) out 0)
    ((s + 1) * (n / (s + 1))) j = _
  rw [scalarLoopF_spec, simdChunks_spec]
  by_cases h1 : (s + 1) * (n / (s + 1)) ≤ j ∧
      j < (s + 1) * (n / (s + 1)) + (n - (s + 1) * (n / (s + 1)))
  · rw [if_pos h1, if_pos (by omega)]
  · rw [if_neg h1]
    by_cases h2 : 0 ≤ j ∧ j < 0 + (s + 1) * (n / (s + 1))
    · rw [if_pos h2, if_pos (by omega)]
    · rw [if_neg h2, if_neg (by omega)]

theorem vector_sub_f32_scalar_spec (sub : α → α → α) (a b out : Nat → α)
    (n : Nat) :
    ∀ j, vector_sub_f32_scalar sub a b out n j =
      if j < n then sub (a j) (b j) else out j := by
  intro j
  show scalarLoopF sub a b n out 0 j = _
  rw [scalarLoopF_spec]
  by_cases h1 : 0 ≤ j ∧ j < 0 + n
  · rw [if_pos h1, if_pos (by omega)]
  · rw [if_neg h1, if_neg (by omega)]

end Kernels

/-- C6: every variant of the vector_sub_f32 family computes
`out[i] = a[i] - b[i]` at each index `i < n` with the same lane operation
as the scalar reference, and hence agrees with it pointwise. -/
theorem vector_sub_f32_variants_agree {α : Type} (sub : α → α → α)
    (a b out : Nat → α) (n : Nat) :
    (∀ j, vector_sub_f32_sse2 sub a b out n j =
        vector_sub_f32_scalar sub a b out n j) ∧
      (∀ j, vector_sub_f32_sse42 sub a b out n j =
        vector_sub_f32_scalar sub a b out n j) ∧
      (∀ j, vector_sub_f32_avx sub a b out n j =
        vector_sub_f32_scalar sub a b out n j) ∧
      (∀ j, vector_sub_f32_avx2 sub a b out n j =
        vector_sub_f32_scalar sub a b out n j) ∧
      (∀ j, vector_sub_f32_avx512f sub a b out n j =
        vector_sub_f32_scalar sub a b out n j) ∧
      ∀ i, i < n → vector_sub_f32_scalar sub a b out n i = sub (a i) (b i) := by
  refine ⟨fun j => ?_, fun j => ?_, fun j => ?_, fun j => ?_, fun j => ?_,
    fun i hi => ?_⟩
  · rw [vector_sub_f32_scalar_spec]
    exact simdKernel_spec sub a b 3 out n j
  · rw [vector_sub_f32_scalar_spec]
    exact simdKernel_spec sub a b 3 out n j
  · rw [vector_sub_f32_scalar_spec]
    exact simdKernel_spec sub a b 7 out n j
  · rw [vector_sub_f32_scalar_spec]
    exact simdKernel_spec sub a b 7 out n j
  · rw [vector_sub_f32_scalar_spec]
    exact simdKernel_spec sub a b 15 out n j
  · rw [vector_sub_f32_scalar_spec]
    rw [if_pos hi]

/-- C6 witness: the scalar reference at a concrete index of a concrete
run equals the elementwise subtraction. -/
theorem vector_sub_f32_variants_agree_witness :
    vector_sub_f32_scalar (fun x y : Int => x - y) (fun i => (i : Int))
        (fun _ => (1 : Int)) (fun _ => (0 : Int)) 5 3 = (3 : Int) - 1 :=
  (vector_sub_f32_variants_agree (fun x y : Int => x - y)
      (fun i => (i : Int)) (fun _ => (1 : Int)) (fun _ => (0 : Int))
      5).2.2.2.2.2 3 (by decide)

/-- C8: every variant writes only the indices below `n` — all other
output elements keep their previous contents — and a zero-length call is
a no-op on the whole output buffer. -/
theorem vector_sub_f32_variants_frame {α : Type} (sub : α → α → α)
    (a b out : Nat → α) (n : Nat) :
    (∀ j, n ≤ j →
      vector_sub_f32_scalar sub a b out n j = out j ∧
        vector_sub_f32_sse2 sub a b out n j = out j ∧
        vector_sub_f32_sse42 sub a b out n j = out j ∧
        vector_sub_f32_avx sub a b out n j = out j ∧
        vector_sub_f32_avx2 sub a b out n j = out j ∧
        vector_sub_f32_avx512f sub a b out n j = out j) ∧
      vector_sub_f32_scalar sub a b out 0 = out ∧
      vector_sub_f32_sse2 sub a b out 0 = out ∧
      vector_sub_f32_sse42 sub a b out 0 = out ∧
      vector_sub_f32_avx sub a b out 0 = out ∧
      vector_sub_f32_avx2 sub a b out 0 = out ∧
      vector_sub_f32_avx512f sub a b out 0 = out := by
  have hs : ∀ n j, n ≤ j → vector_sub_f32_scalar sub a b out n j = out j := by
    intro n j hj
    rw [vector_sub_f32_scalar_spec, if_neg (by omega)]
  have hk : ∀ s n j, n ≤ j → simdKernel sub a b s out n j = out j := by
    intro s n j hj
    rw [simdKernel_spec, if_neg (by omega)]
  refine ⟨fun j hj => ⟨hs n j hj, hk 3 n j hj, hk 3 n j hj, hk 7 n j hj,
      hk 7 n j hj, hk 15 n j hj⟩,
    funext fun j => hs 0 j (Nat.zero_le j),
    funext fun j => hk 3 0 j (Nat.zero_le j),
    funext fun j => hk 3 0 j (Nat.zero_le j),
    funext fun j => hk 7 0 j (Nat.zero_le j),
    funext fun j => hk 7 0 j (Nat.zero_le j),
    funext fun j => hk 15 0 j (Nat.zero_le j)⟩

/-- C8 witness: an AVX-512F run of length 5 leaves index 7 untouched. -/
theorem vector_sub_f32_variants_frame_witness :
    vector_sub_f32_avx512f (fun x y : Int => x - y) (fun i => (i : Int))
        (fun _ => (1 : Int)) (fun _ => (100 : Int)) 5 7 = 100 :=
  ((vector_sub_f32_variants_frame (fun x y : Int => x - y)
      (fun i => (i : Int)) (fun _ => (1 : Int)) (fun _ => (100 : Int))
      5).1 7 (by decide)).2.2.2.2.2

end Dynemit
